import Mathlib

/-!
# Verification of the dpanel frontend against its specification

Shallow embedding of the credential-handling, config-sync and parsing logic of
the dpanel Vue components (`CreateServer.vue`, `EditServer.vue`,
`ServerManagement.vue`, `ServerConfigDialog.vue`, the `ServerXrayRConfigDialog`
component and the `XrayRConfigList` component), together with theorems checking
the claims of the natural-language specification about them.

Conventions of the embedding:
* JS strings are Lean `String`s; JS string operations that matter
  (split, trim, startsWith, includes, toLowerCase, the one regex test)
  are translated into structurally recursive Lean functions over `List Char`.
* JS objects sent as request bodies become Lean structures; a field that can be
  `undefined` (omitted from the JSON body) or `null` or a string is modelled as
  `Option (Option String)`: `none` = key omitted, `some none` = null,
  `some (some v)` = the string `v`.
* `axios` calls become values of an `ApiRequest` inductive; a handler that
  performs calls returns the list of requests it issues alongside its new
  local state.
-/

namespace DPanel

/- ## JS string primitives -/

/-- The line terminators that the JS regex metacharacter `.` does not match. -/
def isJsLineTerminator (c : Char) : Bool :=
  c = '\n' || c = '\r' || c.toNat = 0x2028 || c.toNat = 0x2029

/-- JS `String.prototype.toLowerCase`, modelled per code point. -/
def jsToLower (s : String) : String :=
  ⟨s.toList.map Char.toLower⟩

/-- JS `haystack.includes(needle)`: substring containment. -/
def jsIncludes (haystack needle : String) : Bool :=
  decide (needle.toList <:+: haystack.toList)

/-- Auxiliary for JS `String.prototype.split("\n\n")`: leftmost,
non-overlapping occurrences of the two-newline separator. -/
def splitBlankAux : List Char → List Char → List (List Char)
  | '\n' :: '\n' :: rest, acc => acc.reverse :: splitBlankAux rest []
  | c :: rest, acc => splitBlankAux rest (c :: acc)
  | [], acc => [acc.reverse]

/-- JS `s.split("\n\n")`. -/
def jsSplitBlank (s : String) : List String :=
  (splitBlankAux s.toList []).map List.asString

/-- Auxiliary for JS `String.prototype.split("\n")`. -/
def splitLinesAux : List Char → List Char → List (List Char)
  | '\n' :: rest, acc => acc.reverse :: splitLinesAux rest []
  | c :: rest, acc => splitLinesAux rest (c :: acc)
  | [], acc => [acc.reverse]

/-- JS `s.split("\n")`. -/
def jsSplitLines (s : String) : List String :=
  (splitLinesAux s.toList []).map List.asString

/-- JS `s.trim()` (modelled on the ASCII whitespace actually produced by the
commands involved). -/
def jsTrim (s : String) : String :=
  ⟨((s.toList.dropWhile Char.isWhitespace).reverse.dropWhile Char.isWhitespace).reverse⟩

/-- JS `s.startsWith(p)`. -/
def jsStartsWith (s p : String) : Bool :=
  p.toList.isPrefixOf s.toList

/-- JS `s.endsWith(p)`. -/
def jsEndsWith (s p : String) : Bool :=
  p.toList.isSuffixOf s.toList

/-- JS `arr.join("\n")`. -/
def jsJoinLines (lines : List String) : String :=
  ⟨List.intercalate ['\n'] (lines.map String.toList)⟩

/-- Drop the first `n` characters of a string. -/
def jsDrop (s : String) (n : Nat) : String :=
  ⟨s.toList.drop n⟩

/-- Drop the last `n` characters of a string. -/
def jsDropRight (s : String) (n : Nat) : String :=
  ⟨s.toList.take (s.toList.length - n)⟩

/- ## Server records and the read-side views (ServerManagement.vue / EditServer.vue) -/

/-- A server object as delivered by the backend `GET /servers/servers/` API.
The non-secret fields are the ones the frontend code actually reads
(`loadServers`, `loadServerInfo`).  The two `Option String` fields stand for
secret material that a payload could in principle carry, so that the
hyperproperty "the read side depends only on non-secret fields" is statable. -/
structure ServerApiRecord where
  id : Nat
  name : String
  hostname : String
  port : Nat
  username : String
  has_private_key : Bool
  has_password : Bool
  description : Option String
  created_at : String
  updated_at : String
  password : Option String
  private_key : Option String
  deriving DecidableEq

/-- The row object built by `loadServers` in `ServerManagement.vue`
(lines 101–111): the camel-cased projection shown in the table. -/
structure ServerRow where
  id : Nat
  name : String
  hostname : String
  port : Nat
  username : String
  hasPrivateKey : Bool
  hasPassword : Bool
  createdAt : String
  updatedAt : String
  deriving DecidableEq

/-- Projection performed by `loadServers` in `response.data.map (server => ({...}))`. -/
def mapServerRow (s : ServerApiRecord) : ServerRow :=
  { id := s.id
    name := s.name
    hostname := s.hostname
    port := s.port
    username := s.username
    hasPrivateKey := s.has_private_key
    hasPassword := s.has_password
    createdAt := s.created_at
    updatedAt := s.updated_at }

/-- The auth-method derivation in `loadServerInfo` (`EditServer.vue`
lines 120–126): `both` when key and password are present, `key` when only the
key is, `password` otherwise. -/
def deriveAuthMethod (hasKey hasPwd : Bool) : String :=
  if hasKey && hasPwd then "both"
  else if hasKey then "key"
  else "password"

/-- The reactive `form` of `EditServer.vue`. -/
structure EditForm where
  name : String
  hostname : String
  port : Nat
  username : String
  authMethod : String
  password : String
  privateKey : String
  description : String
  deriving DecidableEq

/-- Model of `loadServerInfo` (`EditServer.vue` lines 106–132): fills the edit form from
the fetched server; the credential inputs start out empty. -/
def loadServerInfoForm (s : ServerApiRecord) : EditForm :=
  { name := s.name
    hostname := s.hostname
    port := s.port
    username := s.username
    authMethod := deriveAuthMethod s.has_private_key s.has_password
    password := ""
    privateKey := ""
    description := s.description.getD "" }

/-- Agreement on every field the read-side code reads (everything except the
secret material). -/
def nonSecretAgree (a b : ServerApiRecord) : Prop :=
  a.id = b.id ∧ a.name = b.name ∧ a.hostname = b.hostname ∧ a.port = b.port ∧
  a.username = b.username ∧ a.has_private_key = b.has_private_key ∧
  a.has_password = b.has_password ∧ a.description = b.description ∧
  a.created_at = b.created_at ∧ a.updated_at = b.updated_at

/- ## The edit-server request body (EditServer.vue handleSubmit) -/

/-- The JSON body of `PUT /servers/servers/{id}` built by `handleSubmit` in
`EditServer.vue` (lines 142–166).  `password`/`private_key`:
`none` = key omitted from the body, `some none` = explicit `null`,
`some (some v)` = the string `v`. -/
structure EditRequest where
  name : String
  hostname : String
  port : Nat
  username : String
  description : String
  password : Option (Option String)
  private_key : Option (Option String)
  deriving DecidableEq

/-- Request construction of `handleSubmit` (`EditServer.vue` lines 142–166):
start from the metadata fields, add `password`/`private_key` only when the
inputs are non-empty, then overwrite with `null` when the chosen auth method
excludes that credential type. -/
def editRequestBody (form : EditForm) : EditRequest :=
  let base : EditRequest :=
    { name := form.name
      hostname := form.hostname
      port := form.port
      username := form.username
      description := form.description
      password := none
      private_key := none }
  let r1 := if form.password ≠ "" then { base with password := some (some form.password) } else base
  let r2 := if form.privateKey ≠ "" then { r1 with private_key := some (some form.privateKey) } else r1
  let r3 :=
    if form.authMethod ≠ "password" ∧ form.authMethod ≠ "both" then
      { r2 with password := some none }
    else r2
  if form.authMethod ≠ "key" ∧ form.authMethod ≠ "both" then
    { r3 with private_key := some none }
  else r3

/- ## The create-server form (CreateServer.vue) -/

/-- The reactive `formData` of `CreateServer.vue` (lines 78–87). -/
structure CreateFormData where
  name : String
  hostname : String
  port : Nat
  username : String
  authMethod : String
  password : String
  privateKey : String
  description : String
  deriving DecidableEq

/-- The initial `formData` value of `CreateServer.vue` (lines 78–87):
`authMethod` starts as `"password"`. -/
def initialCreateFormData : CreateFormData :=
  { name := "", hostname := "", port := 22, username := "",
    authMethod := "password", password := "", privateKey := "", description := "" }

/-- The data dependence of `formRules` on the form: the two `required` flags of
the credential rules (`CreateServer.vue` lines 107–120). -/
structure CreateFormRules where
  passwordRequired : Bool
  privateKeyRequired : Bool
  deriving DecidableEq

/-- Model of `formRules` (`CreateServer.vue` lines 90–121).  The `required` expressions
read `formData.value.authMethod` at the moment the rules object is built; the
component builds it exactly once, while setting up, so the flags are fixed by
the `formData` passed here and never re-evaluated afterwards. -/
def createFormRules (fd : CreateFormData) : CreateFormRules :=
  { passwordRequired := fd.authMethod == "password" || fd.authMethod == "both",
    privateKeyRequired := fd.authMethod == "privateKey" || fd.authMethod == "both" }

/-- Rendering condition of the password input
(the `v-if` comparing `formData.authMethod` with the password and both modes,
line 33). -/
def passwordFieldShown (fd : CreateFormData) : Bool :=
  fd.authMethod == "password" || fd.authMethod == "both"

/-- Rendering condition of the private-key input
(the `v-if` comparing `formData.authMethod` with the privateKey and both
modes, line 37). -/
def privateKeyFieldShown (fd : CreateFormData) : Bool :=
  fd.authMethod == "privateKey" || fd.authMethod == "both"

/-- Model of `formRef.value.validate()` against a rules object.  An `el-form-item`
removed by `v-if` unregisters itself from the form, so only the rules of the
currently rendered credential inputs are checked; `required` fails exactly on
the empty string, `max`/`min`/number-range rules as written in
`formRules`. -/
def validateCreateForm (rules : CreateFormRules) (fd : CreateFormData) : Bool :=
  fd.name != "" && decide (fd.name.length ≤ 100) &&
  fd.hostname != "" && decide (fd.hostname.length ≤ 255) &&
  decide (1 ≤ fd.port) && decide (fd.port ≤ 65535) &&
  fd.username != "" && decide (fd.username.length ≤ 100) &&
  (!passwordFieldShown fd || !rules.passwordRequired || fd.password != "") &&
  (!privateKeyFieldShown fd || !rules.privateKeyRequired || fd.privateKey != "")

/-- The JSON body of `POST /servers/servers/` (`CreateServer.vue`
lines 136–144); `x || undefined` drops the key for an empty string. -/
structure CreateRequest where
  name : String
  hostname : String
  port : Nat
  username : String
  password : Option String
  privateKey : Option String
  description : Option String
  deriving DecidableEq

/-- The `requestData` object of `handleSubmit` (`CreateServer.vue`
lines 136–144). -/
def buildCreateRequest (fd : CreateFormData) : CreateRequest :=
  { name := fd.name
    hostname := fd.hostname
    port := fd.port
    username := fd.username
    password := if fd.password == "" then none else some fd.password
    privateKey := if fd.privateKey == "" then none else some fd.privateKey
    description := if fd.description == "" then none else some fd.description }

/-- Model of `handleSubmit` (`CreateServer.vue` lines 129–158): validate against the
rules captured at component setup (built from `initialCreateFormData`), and
POST the request body only when validation passes. -/
def createServerSubmit (fd : CreateFormData) : Option CreateRequest :=
  if validateCreateForm (createFormRules initialCreateFormData) fd then
    some (buildCreateRequest fd)
  else
    none

/- ## The XrayR config list (XrayRConfigList component, src/unnamed/part_002) -/

/-- The `XrayRConfig` interface of the component (lines 106–118).
`parsed_config` (`Record<string, any>`) is modelled as a finite string-keyed
map. -/
structure XrayRConfig where
  id : Nat
  name : String
  server_id : Nat
  server_hostname : String
  server_username : String
  config_path : String
  parsed_config : List (String × String)
  description : String
  last_sync_at : String
  created_at : String
  updated_at : String
  deriving DecidableEq

/-- The `ConfigForm` interface (lines 121–125). -/
structure ConfigForm where
  name : String
  config_path : String
  description : String
  deriving DecidableEq

/-- The HTTP requests the component can issue through `axios`. -/
inductive ApiRequest where
  /-- `POST /xrayr-configs/servers/{serverId}/configs` with a metadata body. -/
  | postConfigMeta (serverId : Nat) (body : ConfigForm)
  /-- `PUT /xrayr-configs/servers/{serverId}/configs/{configId}`. -/
  | putConfigMeta (serverId : Nat) (configId : Nat) (body : ConfigForm)
  /-- `DELETE /xrayr-configs/servers/{serverId}/configs/{configId}`. -/
  | deleteConfigMeta (serverId : Nat) (configId : Nat)
  /-- `POST /server_configs/servers/{serverId}/config`: read and parse the
  remote file. -/
  | fetchRemoteConfig (serverId : Nat) (configPath : String)
  /-- `POST /ssh_operations/servers/{serverId}/execute`: run a command on the
  remote host. -/
  | sshExecute (serverId : Nat) (command : String) (timeout : Nat)
  deriving DecidableEq

/-- Whether a request reads or writes anything on the remote host (runs a
command there or reads the remote file); the three metadata CRUD requests do
not. -/
def ApiRequest.touchesRemote : ApiRequest → Bool
  | .fetchRemoteConfig _ _ => true
  | .sshExecute _ _ _ => true
  | _ => false

/-- The regex rule on `config_path` in `configFormRules` (lines 165–168):
JS `/^\/.+/.test v` — a leading slash followed by at least one character
matched by `.`. -/
def configPathPatternTest (v : String) : Bool :=
  match v.toList with
  | c0 :: c1 :: _ => c0 == '/' && !isJsLineTerminator c1
  | _ => false

/-- Model of `configFormRules` (lines 160–172) checked by
`configFormRef.value?.validate()`: `name` required with length 2–50,
`config_path` required and matching `/^\/.+/`, `description` at most 200
characters. -/
def validateConfigForm (f : ConfigForm) : Bool :=
  f.name != "" && decide (2 ≤ f.name.length) && decide (f.name.length ≤ 50) &&
  f.config_path != "" && configPathPatternTest f.config_path &&
  decide (f.description.length ≤ 200)

/-- Model of `filteredConfigs` (lines 175–185): the whole list for an empty query,
otherwise a filter on lowercased-name/description containment of the
lowercased query. -/
def filteredConfigs (configs : List XrayRConfig) (searchQuery : String) :
    List XrayRConfig :=
  if searchQuery = "" then configs
  else
    let query := jsToLower searchQuery
    configs.filter fun c =>
      jsIncludes (jsToLower c.name) query || jsIncludes (jsToLower c.description) query

/-- The fields of the `PUT` response that the JS spread
`{ ...configs.value[index], ...response.data }` may override; each `none`
models a key absent from the response body. -/
structure ConfigPutResponse where
  id : Option Nat
  name : Option String
  server_id : Option Nat
  server_hostname : Option String
  server_username : Option String
  config_path : Option String
  parsed_config : Option (List (String × String))
  description : Option String
  last_sync_at : Option String
  created_at : Option String
  updated_at : Option String
  deriving DecidableEq

/-- The spread merge `{ ...old, ...resp }` (line 299): response keys override,
absent keys keep the local value. -/
def mergeConfig (old : XrayRConfig) (resp : ConfigPutResponse) : XrayRConfig :=
  { id := resp.id.getD old.id
    name := resp.name.getD old.name
    server_id := resp.server_id.getD old.server_id
    server_hostname := resp.server_hostname.getD old.server_hostname
    server_username := resp.server_username.getD old.server_username
    config_path := resp.config_path.getD old.config_path
    parsed_config := resp.parsed_config.getD old.parsed_config
    description := resp.description.getD old.description
    last_sync_at := resp.last_sync_at.getD old.last_sync_at
    created_at := resp.created_at.getD old.created_at
    updated_at := resp.updated_at.getD old.updated_at }

/-- Model of `findIndex` followed by assignment at that index (lines 297–300): rewrite
the first element satisfying `p` with `f`, leave everything else in place. -/
def updateFirst (p : α → Bool) (f : α → α) : List α → List α
  | [] => []
  | x :: xs => if p x then f x :: xs else x :: updateFirst p f xs

/-- Model of `submitConfigForm` in edit mode (`editingConfig` set, lines 275–337):
validate; on success PUT the three metadata fields and merge the response into
the first local entry with the edited id.  Returns the issued requests and the
new local list. -/
def submitConfigFormUpdate (serverId : Nat) (configs : List XrayRConfig)
    (editing : XrayRConfig) (form : ConfigForm) (resp : ConfigPutResponse) :
    List ApiRequest × List XrayRConfig :=
  if validateConfigForm form then
    ([.putConfigMeta serverId editing.id form],
      updateFirst (fun c => c.id == editing.id) (fun c => mergeConfig c resp) configs)
  else
    ([], configs)

/-- Model of `submitConfigForm` in create mode (`editingConfig` null, lines 303–318):
validate; on success POST the three metadata fields and push the response onto
the local list. -/
def submitConfigFormCreate (serverId : Nat) (configs : List XrayRConfig)
    (form : ConfigForm) (created : XrayRConfig) :
    List ApiRequest × List XrayRConfig :=
  if validateConfigForm form then
    ([.postConfigMeta serverId form], configs ++ [created])
  else
    ([], configs)

/-- Model of `handleDelete` after the confirmation resolves (lines 360–370): DELETE the
metadata record, then drop every local entry whose id equals the deleted
one. -/
def handleDeleteConfirmed (serverId : Nat) (configs : List XrayRConfig)
    (cfg : XrayRConfig) : List ApiRequest × List XrayRConfig :=
  ([.deleteConfigMeta serverId cfg.id],
    configs.filter fun c => c.id != cfg.id)

/-- A sample config entry used to instantiate witnesses. -/
def cfgA : XrayRConfig :=
  { id := 1, name := "alpha", server_id := 7, server_hostname := "10.0.0.5",
    server_username := "root", config_path := "/etc/XrayR/config.yml",
    parsed_config := [("Log", "info")], description := "first node",
    last_sync_at := "2024-01-01T00:00:00", created_at := "t0", updated_at := "t1" }

/-- A second sample config entry used to instantiate witnesses. -/
def cfgB : XrayRConfig :=
  { id := 2, name := "beta", server_id := 7, server_hostname := "10.0.0.5",
    server_username := "root", config_path := "/etc/XrayR/other.yml",
    parsed_config := [], description := "second node",
    last_sync_at := "", created_at := "t0", updated_at := "t1" }

/- ## The server-info output parser (ServerConfigDialog.vue fetchConfigData) -/

/-- JS replacement of the regex `^###|###$` (global) by the empty string on
the marker line: remove a leading `###`, and a
trailing `###` that does not overlap the removed leading one. -/
def stripHashMarks (s : String) : String :=
  let r := if jsStartsWith s "###" then jsDrop s 3 else s
  if jsEndsWith r "###" then jsDropRight r 3 else r

/-- Assignment `configs[name] = value` on a JS object with string keys: overwrite in
place when the key exists, append otherwise. -/
def setEntry : List (String × String) → String → String → List (String × String)
  | [], k, v => [(k, v)]
  | (k0, v0) :: rest, k, v =>
    if k0 = k then (k, v) :: rest else (k0, v0) :: setEntry rest k v

/-- One iteration of the `sections.forEach` loop of `fetchConfigData`
(`ServerConfigDialog.vue` lines 156–168): trim the section, split it into
lines, and when the first line is non-empty and carries the `###` marker,
store the trimmed remainder under the stripped-and-trimmed marker text if
that value is non-empty. -/
def parseSection (configs : List (String × String)) (sec : String) :
    List (String × String) :=
  match jsSplitLines (jsTrim sec) with
  | [] => configs
  | l0 :: rest =>
    if l0 ≠ "" ∧ jsStartsWith l0 "###" = true then
      let name := jsTrim (stripHashMarks l0)
      let value := jsTrim (jsJoinLines rest)
      if value ≠ "" then setEntry configs name value else configs
    else configs

/-- The fixed fallback entry installed when no section produced a key
(`ServerConfigDialog.vue` lines 171–173). -/
def serverInfoFallback : List (String × String) :=
  [("配置信息", "无法获取详细配置信息，可能是权限不足或命令不支持")]

/-- The stdout parser of `fetchConfigData` (`ServerConfigDialog.vue`
lines 152–173): split on blank lines, collect the marked sections, fall back
to the fixed entry when nothing was collected. -/
def parseServerInfoOutput (stdout : String) : List (String × String) :=
  let configs := (jsSplitBlank stdout).foldl parseSection []
  if configs.isEmpty then serverInfoFallback else configs

/-- The description claim C10 gives of one loop iteration, followed to the
word: the
marker test trims the first line of the section, the key is that trimmed first
line with its `###`s stripped, and the stored value is the remaining lines of
the raw section joined by newlines (no whitespace trimming), kept when
non-empty. -/
def claimParseSection (configs : List (String × String)) (sec : String) :
    List (String × String) :=
  match jsSplitLines sec with
  | [] => configs
  | l0 :: rest =>
    if jsStartsWith (jsTrim l0) "###" = true then
      let name := stripHashMarks (jsTrim l0)
      let value := jsJoinLines rest
      if value ≠ "" then setEntry configs name value else configs
    else configs

/-- The parser as claim C10 describes it. -/
def claimParseServerInfoOutput (stdout : String) : List (String × String) :=
  let configs := (jsSplitBlank stdout).foldl claimParseSection []
  if configs.isEmpty then serverInfoFallback else configs

/-- The amended description of one loop iteration: the section is
whitespace-trimmed before being split into lines, the key sheds the `###`s
and surrounding whitespace, and the stored value is the joined remaining
lines trimmed of surrounding whitespace, kept when non-empty. -/
def amendedParseSection (configs : List (String × String)) (sec : String) :
    List (String × String) :=
  match jsSplitLines (jsTrim sec) with
  | [] => configs
  | l0 :: rest =>
    if jsStartsWith l0 "###" = true then
      let name := jsTrim (stripHashMarks l0)
      let value := jsTrim (jsJoinLines rest)
      if value ≠ "" then setEntry configs name value else configs
    else configs

/-- The parser as the amended claim C10 describes it. -/
def amendedParseServerInfoOutput (stdout : String) : List (String × String) :=
  let configs := (jsSplitBlank stdout).foldl amendedParseSection []
  if configs.isEmpty then serverInfoFallback else configs

/- ## The config-sync fetch (spec-modelled backend) -/

/-- A parsed structured document: a string-keyed mapping snapshot. -/
abbrev ParsedDoc := List (String × String)

/-- The sync state the ConfigSyncEngine of the spec keeps per
(server, config):
raw content, parsed snapshot, parse-error field and last-sync timestamp. -/
structure SyncedConfigState where
  rawContent : Option String
  parsedConfig : Option ParsedDoc
  parseError : Option String
  lastSyncAt : Option Nat
  deriving DecidableEq

/-- Modelled from the spec: the backend handler of
`POST /server_configs/servers/{id}/config` — the `ConfigSyncEngine.fetch` of
spec §4.3 — is not under `src/`; the repository shows only its caller
`fetchConfigData` in the `ServerXrayRConfigDialog` component.  Per the spec:
on an SSH-layer failure the previous snapshot and timestamp are left
untouched (the error is surfaced separately); on a successful read the raw
content is retained and last-sync advances to the call time, and unparseable
content sets the parse-error field instead of aborting the fetch. -/
def fetchConfig (prev : SyncedConfigState) (readResult : Except String String)
    (parse : String → Except String ParsedDoc) (now : Nat) : SyncedConfigState :=
  match readResult with
  | .error _ => prev
  | .ok raw =>
    match parse raw with
    | .ok doc =>
      { rawContent := some raw, parsedConfig := some doc,
        parseError := none, lastSyncAt := some now }
    | .error e =>
      { rawContent := some raw, parsedConfig := none,
        parseError := some e, lastSyncAt := some now }

end DPanel

namespace DPanel

/-- C8: the auth-method derivation is the stated total function of the two
read-side booleans; in particular a record with neither credential is shown as
password auth. -/
theorem c8_auth_method_derivation :
    deriveAuthMethod true true = "both" ∧
    deriveAuthMethod true false = "key" ∧
    deriveAuthMethod false true = "password" ∧
    deriveAuthMethod false false = "password" := by
  refine ⟨rfl, rfl, rfl, rfl⟩

/-- C4: the list row built by `loadServers` and the edit form filled by
`loadServerInfo` are functions of the non-secret fields only: two records
agreeing on those fields produce identical read-side output, whatever secret
material the payloads carry. -/
theorem c4_read_side_noninterference (a b : ServerApiRecord)
    (h : nonSecretAgree a b) :
    mapServerRow a = mapServerRow b ∧ loadServerInfoForm a = loadServerInfoForm b := by
  obtain ⟨h1, h2, h3, h4, h5, h6, h7, h8, h9, h10⟩ := h
  constructor
  · simp [mapServerRow, h1, h2, h3, h4, h5, h6, h7, h9, h10]
  · simp [loadServerInfoForm, h1, h2, h3, h4, h5, h6, h7, h8, h9, h10]

/-- Witness for C4 at two concrete records that differ only in secret
material. -/
theorem c4_read_side_noninterference_witness :
    mapServerRow
        { id := 1, name := "db1", hostname := "10.0.0.5", port := 22,
          username := "root", has_private_key := false, has_password := true,
          description := none, created_at := "t0", updated_at := "t1",
          password := some "secret", private_key := none } =
      mapServerRow
        { id := 1, name := "db1", hostname := "10.0.0.5", port := 22,
          username := "root", has_private_key := false, has_password := true,
          description := none, created_at := "t0", updated_at := "t1",
          password := some "other", private_key := some "PEM" } := by
  exact (c4_read_side_noninterference _ _
    ⟨rfl, rfl, rfl, rfl, rfl, rfl, rfl, rfl, rfl, rfl⟩).1

/-- C2: for the `PUT` body built on submission, a credential key is omitted
when its input is empty while the auth method still selects that credential
(the stored secret stays untouched), and is an explicit `null` whenever the
chosen auth method excludes that credential type — for the password and,
symmetrically, for the private key. -/
theorem c2_edit_request_credential_semantics (form : EditForm) :
    ((form.authMethod = "password" ∨ form.authMethod = "both") →
        form.password = "" → (editRequestBody form).password = none) ∧
    ((form.authMethod ≠ "password" ∧ form.authMethod ≠ "both") →
        (editRequestBody form).password = some none) ∧
    ((form.authMethod = "key" ∨ form.authMethod = "both") →
        form.privateKey = "" → (editRequestBody form).private_key = none) ∧
    ((form.authMethod ≠ "key" ∧ form.authMethod ≠ "both") →
        (editRequestBody form).private_key = some none) := by
  refine ⟨?_, ?_, ?_, ?_⟩
  · intro hm hpw
    simp only [editRequestBody]
    split_ifs <;> simp_all
  · intro hm
    simp only [editRequestBody]
    split_ifs <;> simp_all
  · intro hm hpk
    simp only [editRequestBody]
    split_ifs <;> simp_all
  · intro hm
    simp only [editRequestBody]
    split_ifs <;> simp_all

/-- C1 (code bug): the `required` flags of the credential rules were computed
once from the initial form (`authMethod = "password"`), so the private-key
rule is never required; with auth method `privateKey` and both credential
inputs empty, the hidden password field is unregistered, validation passes,
and a create request carrying neither credential is POSTed — contradicting the
claim that such a submission is always rejected before reaching the
backend. -/
theorem c1_neither_credential_request_sent :
    (createFormRules initialCreateFormData).privateKeyRequired = false ∧
    createServerSubmit
        { name := "web1", hostname := "10.0.0.5", port := 22, username := "root",
          authMethod := "privateKey", password := "", privateKey := "",
          description := "" } =
      some { name := "web1", hostname := "10.0.0.5", port := 22,
             username := "root", password := none, privateKey := none,
             description := none } := by
  exact ⟨rfl, rfl⟩

/-- Witness for C2 at a concrete key-only edit with both inputs left empty:
the body clears the password (`null`) and leaves the private key untouched
(key omitted). -/
theorem c2_edit_request_credential_semantics_witness :
    (editRequestBody
        { name := "db1", hostname := "10.0.0.5", port := 22, username := "root",
          authMethod := "key", password := "", privateKey := "",
          description := "" }).password = some none ∧
    (editRequestBody
        { name := "db1", hostname := "10.0.0.5", port := 22, username := "root",
          authMethod := "key", password := "", privateKey := "",
          description := "" }).private_key = none := by
  have h := c2_edit_request_credential_semantics
    { name := "db1", hostname := "10.0.0.5", port := 22, username := "root",
      authMethod := "key", password := "", privateKey := "", description := "" }
  exact ⟨h.2.1 (by decide), h.2.2.1 (Or.inl rfl) rfl⟩

/-- The config-path pattern accepts exactly a leading slash followed by at
least one character that is not a line terminator. -/
theorem configPathPatternTest_true_iff (v : String) :
    configPathPatternTest v = true ↔
      ∃ c rest, v.toList = '/' :: c :: rest ∧ isJsLineTerminator c = false := by
  rcases hv : v.toList with _ | ⟨c0, _ | ⟨c1, rest⟩⟩ <;>
    (try have hv' : v.data = _ := hv)
  · simp [configPathPatternTest, hv, hv']
  · simp [configPathPatternTest, hv, hv']
  · simp only [configPathPatternTest, hv, hv', Bool.and_eq_true, beq_iff_eq,
      Bool.not_eq_true']
    constructor
    · rintro ⟨h0, h1⟩
      exact ⟨c1, rest, by rw [h0], h1⟩
    · rintro ⟨c, r, heq, hc⟩
      injection heq with h0 h1
      injection h1 with h1a h1b
      subst h0
      subst h1a
      exact ⟨rfl, hc⟩

/-- A string accepted by the config-path pattern starts with a slash. -/
theorem configPathPatternTest_startsWith (v : String)
    (h : configPathPatternTest v = true) : jsStartsWith v "/" = true := by
  obtain ⟨c, rest, hl, -⟩ := (configPathPatternTest_true_iff v).mp h
  have hl' : v.data = '/' :: c :: rest := hl
  simp [jsStartsWith, hl', List.isPrefixOf]

/-- C3 counterexample: the path `"/"` starts with a slash, yet the rule
`/^\/.+/` rejects it (it demands a character after the slash), so acceptance
is not "exactly when v starts with a slash". -/
theorem c3_slash_only_rejected :
    jsStartsWith "/" "/" = true ∧
    configPathPatternTest "/" = false ∧
    validateConfigForm { name := "xrayr", config_path := "/", description := "" } = false := by
  refine ⟨by decide, by decide, by decide⟩

/-- C3 amended: validation accepts the path exactly when it starts with a
slash followed by at least one further character (one the regex `.` matches);
any path that does not start with a slash fails the rule, and a form that
fails validation causes `submitConfigForm` to send nothing, in create and in
edit mode alike. -/
theorem c3_amended_config_path_rule (form : ConfigForm) :
    (configPathPatternTest form.config_path = true ↔
      ∃ c rest, form.config_path.toList = '/' :: c :: rest ∧
        isJsLineTerminator c = false) ∧
    (validateConfigForm form = true → jsStartsWith form.config_path "/" = true) ∧
    (jsStartsWith form.config_path "/" = false →
      ∀ (serverId : Nat) (configs : List XrayRConfig) (editing : XrayRConfig)
        (resp : ConfigPutResponse) (created : XrayRConfig),
        submitConfigFormUpdate serverId configs editing form resp = ([], configs) ∧
        submitConfigFormCreate serverId configs form created = ([], configs)) := by
  have hpat := configPathPatternTest_true_iff form.config_path
  refine ⟨hpat, ?_, ?_⟩
  · intro hv
    have hp : configPathPatternTest form.config_path = true := by
      simp only [validateConfigForm, Bool.and_eq_true] at hv
      exact hv.1.2
    exact configPathPatternTest_startsWith _ hp
  · intro hs serverId configs editing resp created
    have hv : validateConfigForm form = false := by
      rcases hvv : validateConfigForm form with _ | _
      · rfl
      · exact absurd (configPathPatternTest_startsWith _ (by
          simp only [validateConfigForm, Bool.and_eq_true] at hvv
          exact hvv.1.2)) (by simp [hs])
    constructor
    · simp [submitConfigFormUpdate, hv]
    · simp [submitConfigFormCreate, hv]

/-- Witness for the amended theorem of C3 at the default path
`/etc/XrayR/config.yml` and at a path missing the slash. -/
theorem c3_amended_config_path_rule_witness :
    jsStartsWith "/etc/XrayR/config.yml" "/" = true ∧
    submitConfigFormUpdate 7 [cfgA] cfgA
        { name := "xrayr", config_path := "etc/XrayR/config.yml",
          description := "" }
        { id := none, name := none, server_id := none, server_hostname := none,
          server_username := none, config_path := none, parsed_config := none,
          description := none, last_sync_at := none, created_at := none,
          updated_at := none } = ([], [cfgA]) := by
  constructor
  · exact (c3_amended_config_path_rule
      { name := "xrayr", config_path := "/etc/XrayR/config.yml",
        description := "" }).2.1 (by decide)
  · exact ((c3_amended_config_path_rule
      { name := "xrayr", config_path := "etc/XrayR/config.yml",
        description := "" }).2.2 (by decide) 7 [cfgA] cfgA _ cfgA).1

/-- C5: a confirmed config deletion issues exactly one request — the metadata
DELETE — and the new local list is the old one with precisely the entries
bearing the deleted id removed: it is a sublist (order and contents of the
other entries untouched) and every entry with a different id keeps its exact
multiplicity. -/
theorem c5_delete_local_only (serverId : Nat) (configs : List XrayRConfig)
    (cfg : XrayRConfig) :
    (handleDeleteConfirmed serverId configs cfg).1 =
        [ApiRequest.deleteConfigMeta serverId cfg.id] ∧
    (∀ r ∈ (handleDeleteConfirmed serverId configs cfg).1,
        r.touchesRemote = false) ∧
    (handleDeleteConfirmed serverId configs cfg).2.Sublist configs ∧
    (∀ x : XrayRConfig,
        List.count x (handleDeleteConfirmed serverId configs cfg).2 =
          if x.id = cfg.id then 0 else List.count x configs) := by
  refine ⟨rfl, ?_, ?_, ?_⟩
  · intro r hr
    simp only [handleDeleteConfirmed, List.mem_singleton] at hr
    subst hr
    rfl
  · exact List.filter_sublist _
  · intro x
    by_cases hx : x.id = cfg.id
    · rw [if_pos hx, List.count_eq_zero]
      intro hmem
      rw [handleDeleteConfirmed, List.mem_filter] at hmem
      simp [hx] at hmem
    · rw [if_neg hx]
      exact List.count_filter (by simp [hx])

/-- Witness for C5: deleting `cfgB` from `[cfgA, cfgB]` issues only the
metadata DELETE and removes exactly `cfgB`. -/
theorem c5_delete_local_only_witness :
    (handleDeleteConfirmed 7 [cfgA, cfgB] cfgB).1 =
        [ApiRequest.deleteConfigMeta 7 cfgB.id] ∧
    (ApiRequest.deleteConfigMeta 7 cfgB.id).touchesRemote = false ∧
    List.count cfgB (handleDeleteConfirmed 7 [cfgA, cfgB] cfgB).2 = 0 ∧
    List.count cfgA (handleDeleteConfirmed 7 [cfgA, cfgB] cfgB).2 =
      List.count cfgA [cfgA, cfgB] := by
  have h := c5_delete_local_only 7 [cfgA, cfgB] cfgB
  refine ⟨h.1, ?_, ?_, ?_⟩
  · exact h.2.1 _ (by rw [h.1]; exact List.mem_singleton_self _)
  · rw [h.2.2.2 cfgB, if_pos rfl]
  · rw [h.2.2.2 cfgA, if_neg (by decide)]

/-- C9: with the empty query the filtered list is the whole list unchanged;
otherwise the relative order is preserved (the result is a sublist) and a
config is kept exactly when the lowercased query occurs as a substring of its
lowercased name or of its lowercased description. -/
theorem c9_filtered_configs_characterization (configs : List XrayRConfig)
    (q : String) :
    filteredConfigs configs "" = configs ∧
    (filteredConfigs configs q).Sublist configs ∧
    (q ≠ "" → ∀ c, c ∈ filteredConfigs configs q ↔
      c ∈ configs ∧
        ((jsToLower q).toList <:+: (jsToLower c.name).toList ∨
         (jsToLower q).toList <:+: (jsToLower c.description).toList)) := by
  refine ⟨by simp [filteredConfigs], ?_, ?_⟩
  · by_cases hq : q = ""
    · simp [filteredConfigs, hq]
    · simp only [filteredConfigs, if_neg hq]
      exact List.filter_sublist _
  · intro hq c
    simp only [filteredConfigs, if_neg hq, List.mem_filter, jsIncludes,
      Bool.or_eq_true, decide_eq_true_eq]

/-- Function `updateFirst` keeps the length of the list. -/
theorem updateFirst_length (p : α → Bool) (f : α → α) (l : List α) :
    (updateFirst p f l).length = l.length := by
  induction l with
  | nil => rfl
  | cons x xs ih =>
    simp only [updateFirst]
    split
    · simp
    · simp [ih]

/-- Every position of `updateFirst p f l` holds either the original element or
the image under `f` of an original element satisfying `p`. -/
theorem updateFirst_getElem? (p : α → Bool) (f : α → α) (l : List α) (i : Nat) :
    (updateFirst p f l)[i]? = l[i]? ∨
      ∃ x, l[i]? = some x ∧ p x = true ∧ (updateFirst p f l)[i]? = some (f x) := by
  induction l generalizing i with
  | nil => left; rfl
  | cons y ys ih =>
    by_cases hp : p y
    · cases i with
      | zero => right; exact ⟨y, by simp, by simpa using hp, by simp [updateFirst, hp]⟩
      | succ n => left; simp [updateFirst, hp]
    · cases i with
      | zero => left; simp [updateFirst, hp]
      | succ n => simpa [updateFirst, hp] using ih n

/-- When the response omits `parsed_config`, merging keeps the local one. -/
theorem mergeConfig_parsed_config (c : XrayRConfig) (resp : ConfigPutResponse)
    (h : resp.parsed_config = none) :
    (mergeConfig c resp).parsed_config = c.parsed_config := by
  simp [mergeConfig, h]

/-- When the response omits `last_sync_at`, merging keeps the local one. -/
theorem mergeConfig_last_sync_at (c : XrayRConfig) (resp : ConfigPutResponse)
    (h : resp.last_sync_at = none) :
    (mergeConfig c resp).last_sync_at = c.last_sync_at := by
  simp [mergeConfig, h]

/-- C6: a validated metadata update issues exactly one request, the metadata
PUT — nothing that reads the remote file or runs a remote command — and the
new local list has the same length, keeps every entry whose id differs from
the edited one byte-for-byte, turns the matching entry into the spread-merge
with the PUT response, and (for a metadata-only response, one carrying no
`parsed_config` or `last_sync_at` key) leaves the parsed snapshot
and last-sync timestamp exactly as they were. -/
theorem c6_update_metadata_only (serverId : Nat) (configs : List XrayRConfig)
    (editing : XrayRConfig) (form : ConfigForm) (resp : ConfigPutResponse)
    (hv : validateConfigForm form = true)
    (hpc : resp.parsed_config = none) (hls : resp.last_sync_at = none) :
    (submitConfigFormUpdate serverId configs editing form resp).1 =
        [ApiRequest.putConfigMeta serverId editing.id form] ∧
    (∀ r ∈ (submitConfigFormUpdate serverId configs editing form resp).1,
        r.touchesRemote = false) ∧
    (submitConfigFormUpdate serverId configs editing form resp).2.length =
        configs.length ∧
    (∀ (i : Nat) c, configs[i]? = some c →
        (submitConfigFormUpdate serverId configs editing form resp).2[i]? = some c ∨
        (c.id = editing.id ∧
          (submitConfigFormUpdate serverId configs editing form resp).2[i]? =
            some (mergeConfig c resp))) ∧
    (∀ (i : Nat), ((submitConfigFormUpdate serverId configs editing form resp).2[i]?).map
            XrayRConfig.parsed_config = (configs[i]?).map XrayRConfig.parsed_config ∧
          ((submitConfigFormUpdate serverId configs editing form resp).2[i]?).map
            XrayRConfig.last_sync_at = (configs[i]?).map XrayRConfig.last_sync_at) := by
  have hout : (submitConfigFormUpdate serverId configs editing form resp).2 =
      updateFirst (fun c => c.id == editing.id) (fun c => mergeConfig c resp) configs := by
    simp [submitConfigFormUpdate, hv]
  refine ⟨by simp [submitConfigFormUpdate, hv], ?_, ?_, ?_, ?_⟩
  · intro r hr
    simp only [submitConfigFormUpdate, hv, if_pos, List.mem_singleton] at hr
    subst hr
    rfl
  · rw [hout]
    exact updateFirst_length _ _ _
  · intro i c hc
    rw [hout]
    rcases updateFirst_getElem? (fun c => c.id == editing.id)
        (fun c => mergeConfig c resp) configs i with h | ⟨x, hx, hpx, hfx⟩
    · left
      rw [h, hc]
    · right
      rw [hc] at hx
      injection hx with hx
      subst hx
      exact ⟨by simpa using hpx, hfx⟩
  · intro i
    rw [hout]
    rcases updateFirst_getElem? (fun c => c.id == editing.id)
        (fun c => mergeConfig c resp) configs i with h | ⟨x, hx, hpx, hfx⟩
    · rw [h]
      exact ⟨rfl, rfl⟩
    · rw [hfx, hx]
      exact ⟨by simp [mergeConfig_parsed_config x resp hpc],
             by simp [mergeConfig_last_sync_at x resp hls]⟩

/-- Witness for C6: editing the metadata of `cfgA` in `[cfgA, cfgB]` with a
name-only response issues just the PUT and leaves the parsed snapshots and
last-sync timestamps of both entries untouched. -/
theorem c6_update_metadata_only_witness :
    (submitConfigFormUpdate 7 [cfgA, cfgB] cfgA
        { name := "renamed", config_path := "/etc/XrayR/config.yml",
          description := "" }
        { id := none, name := some "renamed", server_id := none,
          server_hostname := none, server_username := none, config_path := none,
          parsed_config := none, description := none, last_sync_at := none,
          created_at := none, updated_at := some "t2" }).1 =
      [ApiRequest.putConfigMeta 7 cfgA.id
        { name := "renamed", config_path := "/etc/XrayR/config.yml",
          description := "" }] ∧
    ((submitConfigFormUpdate 7 [cfgA, cfgB] cfgA
        { name := "renamed", config_path := "/etc/XrayR/config.yml",
          description := "" }
        { id := none, name := some "renamed", server_id := none,
          server_hostname := none, server_username := none, config_path := none,
          parsed_config := none, description := none, last_sync_at := none,
          created_at := none, updated_at := some "t2" }).2[0]?).map
      XrayRConfig.parsed_config = some cfgA.parsed_config := by
  have h := c6_update_metadata_only 7 [cfgA, cfgB] cfgA
    { name := "renamed", config_path := "/etc/XrayR/config.yml",
      description := "" }
    { id := none, name := some "renamed", server_id := none,
      server_hostname := none, server_username := none, config_path := none,
      parsed_config := none, description := none, last_sync_at := none,
      created_at := none, updated_at := some "t2" }
    (by decide) rfl rfl
  exact ⟨h.1, by rw [(h.2.2.2.2 0).1]; rfl⟩

/-- Witness for C9 with the query `"alp"` against `[cfgA, cfgB]`: the empty
query returns the list unchanged, and `cfgA` (name `"alpha"`) is kept. -/
theorem c9_filtered_configs_characterization_witness :
    filteredConfigs [cfgA, cfgB] "" = [cfgA, cfgB] ∧
    cfgA ∈ filteredConfigs [cfgA, cfgB] "alp" := by
  have h := c9_filtered_configs_characterization [cfgA, cfgB] "alp"
  refine ⟨h.1, (h.2.2 (by decide) cfgA).mpr ⟨by simp, Or.inl (by decide)⟩⟩

/-- C7 (spec-modelled backend): a fetch whose read succeeds but whose content
fails to parse does not abort — the raw content is retained, the last-sync
timestamp advances to the call time, and the parse error is recorded
alongside. -/
theorem c7_fetch_parse_error_nonfatal (prev : SyncedConfigState)
    (parse : String → Except String ParsedDoc) (raw : String) (now : Nat)
    (e : String) (hp : parse raw = .error e) :
    (fetchConfig prev (.ok raw) parse now).rawContent = some raw ∧
    (fetchConfig prev (.ok raw) parse now).lastSyncAt = some now ∧
    (fetchConfig prev (.ok raw) parse now).parseError = some e := by
  simp [fetchConfig, hp]

/-- Witness for C7: fetching syntactically invalid content over an empty
previous state records the raw text, the call time and the parse error. -/
theorem c7_fetch_parse_error_nonfatal_witness :
    (fetchConfig ⟨none, none, none, none⟩ (Except.ok "key: [")
        (fun _ => Except.error "invalid yaml") 42).rawContent = some "key: [" ∧
    (fetchConfig ⟨none, none, none, none⟩ (Except.ok "key: [")
        (fun _ => Except.error "invalid yaml") 42).lastSyncAt = some 42 ∧
    (fetchConfig ⟨none, none, none, none⟩ (Except.ok "key: [")
        (fun _ => Except.error "invalid yaml") 42).parseError =
      some "invalid yaml" :=
  c7_fetch_parse_error_nonfatal ⟨none, none, none, none⟩
    (fun _ => Except.error "invalid yaml") "key: [" 42 "invalid yaml" rfl

/-- C10 counterexample: on the stdout `"###A:###\n x"` the code stores the
trimmed value `"x"`, while the description in the claim — the remaining lines
joined by newlines, with no trimming — yields `" x"`; the parser does not
match the wording of the claim. -/
theorem c10_value_whitespace_counterexample :
    parseServerInfoOutput "###A:###\n x" = [("A:", "x")] ∧
    claimParseServerInfoOutput "###A:###\n x" = [("A:", " x")] ∧
    parseServerInfoOutput "###A:###\n x" ≠
      claimParseServerInfoOutput "###A:###\n x" := by
  refine ⟨by decide, by decide, by decide⟩

/-- C10 amended: the parser behaves as the claim describes once the
whitespace handling is stated — each section is trimmed before the line
split, the key sheds the `###`s and surrounding whitespace, and the stored
value is the joined remaining lines trimmed of surrounding whitespace, kept
when non-empty; moreover the result is never the empty map thanks to the
fallback entry. -/
theorem c10_amended_parser_characterization (stdout : String) :
    parseServerInfoOutput stdout = amendedParseServerInfoOutput stdout ∧
    parseServerInfoOutput stdout ≠ [] := by
  have hstep : ∀ cfgs sec, parseSection cfgs sec = amendedParseSection cfgs sec := by
    intro cfgs sec
    simp only [parseSection, amendedParseSection]
    cases h : jsSplitLines (jsTrim sec) with
    | nil => rfl
    | cons l0 rest =>
      by_cases h0 : l0 = ""
      · subst h0
        simp [jsStartsWith, List.isPrefixOf]
      · simp [h0]
  have hfold : ∀ (l : List String) (init : List (String × String)),
      l.foldl parseSection init = l.foldl amendedParseSection init := by
    intro l
    induction l with
    | nil => intro init; rfl
    | cons x xs ih =>
      intro init
      simp only [List.foldl]
      rw [hstep]
      exact ih _
  constructor
  · simp only [parseServerInfoOutput, amendedParseServerInfoOutput]
    rw [hfold]
  · show (if ((jsSplitBlank stdout).foldl parseSection []).isEmpty then
        serverInfoFallback else (jsSplitBlank stdout).foldl parseSection []) ≠ []
    by_cases h : ((jsSplitBlank stdout).foldl parseSection []).isEmpty
    · simp [h, serverInfoFallback]
    · rw [if_neg h]
      intro hc
      exact h (by simp [hc])

/-- Witness for the amended theorem of C10 at a concrete stdout. -/
theorem c10_amended_parser_characterization_witness :
    parseServerInfoOutput "###A:###\nv\n\njunk" =
        amendedParseServerInfoOutput "###A:###\nv\n\njunk" ∧
    parseServerInfoOutput "###A:###\nv\n\njunk" ≠ [] :=
  c10_amended_parser_characterization "###A:###\nv\n\njunk"

end DPanel
